import Mathlib

/-!
Shallow embedding of the Smart Helpdesk agent service (`src/agent/app`):
the relevance engine (`search.py`), the classifier and drafter
(`llm_provider.py`) and the triage pipeline (`pipeline.py`).

Python strings are modelled as Lean `String`s (lists of characters);
Python `float` arithmetic on the small confidence/score values is modelled
exactly over `ℚ`; Python `round(x, n)` (round-half-to-even) is modelled by
`pyRound`.  The external generative model is an opaque collaborator: it is
modelled as an `Option String` oracle (`some text` = the call returned
`text`, `none` = the call raised), which is exactly the interface the code
consumes.  Wall-clock metadata (`time.time()` based fields of the step
logs) is not representable in a pure embedding and is not modelled; step
log entries are modelled by their `action` field.
-/

set_option maxRecDepth 16384

namespace Helpdesk

/-! ### Python string primitives -/

/-- The whitespace characters stripped/split by Python `str.strip()` and
`str.split()` (ASCII range). -/
def pyIsSpace (c : Char) : Bool :=
  c = ' ' || c = '\t' || c = '\n' || c = '\r' || c = '\x0b' || c = '\x0c'

/-- A regex `\w` character: letters, digits and underscore (ASCII model). -/
def isWordChar (c : Char) : Bool := c.isAlphanum || c = '_'

/-- Python `str.lower()` (ASCII model). -/
def lowerStr (s : String) : String := ⟨s.data.map Char.toLower⟩

/-- Python `needle in hay` substring containment, on character lists. -/
def containsSubCL (p : List Char) : List Char → Bool
  | [] => p.isPrefixOf []
  | c :: t => p.isPrefixOf (c :: t) || containsSubCL p t

/-- Greedy non-overlapping occurrence scanning with explicit fuel (the
scan advances at least one character per step, so fuel = list length is
enough; the fuel only makes the recursion structural). -/
def countOccFuel (p : List Char) : Nat → List Char → Nat
  | 0, _ => 0
  | _ + 1, [] => 0
  | fuel + 1, c :: t =>
    if p.isPrefixOf (c :: t) then 1 + countOccFuel p fuel (t.drop (p.length - 1))
    else countOccFuel p fuel t

/-- Greedy non-overlapping occurrence counting, the semantics of Python
`hay.count(needle)` for a non-empty needle: scan left to right, and after a
match continue after its end. -/
def countOccGo (p t : List Char) : Nat := countOccFuel p t.length t

theorem countOccFuel_congr (p : List Char) :
    ∀ (f1 : Nat) (t : List Char) (f2 : Nat), t.length ≤ f1 → t.length ≤ f2 →
      countOccFuel p f1 t = countOccFuel p f2 t := by
  intro f1
  induction f1 with
  | zero =>
    intro t f2 h1 _
    have ht : t = [] := List.eq_nil_of_length_eq_zero (Nat.le_zero.mp h1)
    subst ht
    cases f2 <;> rfl
  | succ f ih =>
    intro t f2 h1 h2
    cases t with
    | nil => cases f2 <;> rfl
    | cons c t' =>
      cases f2 with
      | zero => simp at h2
      | succ f2' =>
        simp only [countOccFuel]
        by_cases hp : p.isPrefixOf (c :: t') = true
        · rw [if_pos hp, if_pos hp]
          have hd := List.length_drop (p.length - 1) t'
          simp only [List.length_cons] at h1 h2
          rw [ih (t'.drop (p.length - 1)) f2' (by omega) (by omega)]
        · rw [if_neg hp, if_neg hp]
          simp only [List.length_cons] at h1 h2
          exact ih t' f2' (by omega) (by omega)

/-- Python `hay.count(needle)` (the `needle = ""` case counts gaps). -/
def pyCount (needle hay : String) : Nat :=
  if needle.data = [] then hay.data.length + 1 else countOccGo needle.data hay.data

/-- Python `needle in hay`. -/
def pyIn (needle hay : String) : Bool := containsSubCL needle.data hay.data

theorem length_dropWhile_le (p : Char → Bool) (l : List Char) :
    (l.dropWhile p).length ≤ l.length := by
  induction l with
  | nil => simp
  | cons c t ih =>
    simp only [List.dropWhile]
    split
    · exact Nat.le_trans ih (Nat.le_succ _)
    · exact Nat.le_refl _

/-- Run grouping with explicit fuel (each step consumes at least one
character, so fuel = list length is enough). -/
def runsByFuel (p : Char → Bool) : Nat → List Char → List (List Char)
  | 0, _ => []
  | _ + 1, [] => []
  | fuel + 1, c :: t =>
    if p c then (c :: t.takeWhile p) :: runsByFuel p fuel (t.dropWhile p)
    else runsByFuel p fuel t

/-- The maximal runs of characters satisfying `p` (used for `re.findall`
of `\b\w+\b`-style patterns and for whitespace splitting). -/
def runsBy (p : Char → Bool) (l : List Char) : List (List Char) :=
  runsByFuel p l.length l

/-- Python `str.strip()`. -/
def pyStrip (s : String) : String :=
  ⟨((s.data.dropWhile pyIsSpace).reverse.dropWhile pyIsSpace).reverse⟩

/-- Python `str.split()` with no argument: whitespace runs are separators,
empty pieces are discarded. -/
def pySplitWs (s : String) : List String :=
  (runsBy (fun c => !pyIsSpace c) s.data).map (fun l => ⟨l⟩)

/-- Python `re.findall(r"\b\w+\b", s)`: the maximal word-character runs of `s`. -/
def wordTokens (s : String) : List String :=
  (runsBy isWordChar s.data).map (fun l => ⟨l⟩)

/-- Python `str.split(sep)` for a single-character separator: keeps empty
pieces, and splitting the empty string yields `[""]`. -/
def splitOnCharCL (sep : Char) : List Char → List (List Char)
  | [] => [[]]
  | c :: t =>
    if c = sep then [] :: splitOnCharCL sep t
    else
      match splitOnCharCL sep t with
      | [] => [[c]]
      | h :: r => (c :: h) :: r

/-- Python `s.split("\n")`. -/
def splitLines (s : String) : List String :=
  (splitOnCharCL '\n' s.data).map (fun l => ⟨l⟩)

/-- Python `sep.join(parts)`. -/
def joinWith (sep : String) : List String → String
  | [] => ""
  | [x] => x
  | x :: y :: r => x ++ sep ++ joinWith sep (y :: r)

/-- Python `s.split(sep, 1)[1]` for a single-character separator: the text
after the first occurrence of `sep` (used only where the separator is
guaranteed to occur). -/
def afterFirstChar (sep : Char) (s : String) : String :=
  match s.data.dropWhile (· != sep) with
  | [] => ""
  | _ :: r => ⟨r⟩

/-- Python `str.startswith`. -/
def pyStartsWith (pre s : String) : Bool := pre.data.isPrefixOf s.data

/-! ### Python rounding over ℚ

Python's `round(x, d)` rounds half to even.  On the small decimal values
handled by this service the `float` arithmetic is modelled exactly by `ℚ`.
-/

/-- Round half to even, to the nearest integer. -/
def rhe (q : ℚ) : ℤ :=
  let f := ⌊q⌋
  let r := q - (f : ℚ)
  if r < 1/2 then f
  else if 1/2 < r then f + 1
  else if f % 2 = 0 then f else f + 1

/-- Python `round(q, d)`. -/
def pyRound (d : Nat) (q : ℚ) : ℚ :=
  (rhe (q * ((10 ^ d : ℕ) : ℚ)) : ℚ) / ((10 ^ d : ℕ) : ℚ)

theorem floor_le_rhe (q : ℚ) : ⌊q⌋ ≤ rhe q := by
  unfold rhe
  dsimp only
  split
  · exact Int.le_refl _
  · split
    · omega
    · split
      · exact Int.le_refl _
      · omega

theorem rhe_le_floor_add_one (q : ℚ) : rhe q ≤ ⌊q⌋ + 1 := by
  unfold rhe
  dsimp only
  split
  · omega
  · split
    · exact Int.le_refl _
    · split
      · omega
      · exact Int.le_refl _

theorem rhe_intCast (n : ℤ) : rhe ((n : ℚ)) = n := by
  unfold rhe
  dsimp only
  rw [Int.floor_intCast]
  norm_num

theorem le_rhe_of_int_le {n : ℤ} {q : ℚ} (h : (n : ℚ) ≤ q) : n ≤ rhe q :=
  le_trans (Int.le_floor.mpr h) (floor_le_rhe q)

theorem rhe_le_of_le_int {q : ℚ} {n : ℤ} (h : q ≤ (n : ℚ)) : rhe q ≤ n := by
  rcases eq_or_lt_of_le h with heq | hlt
  · rw [heq, rhe_intCast]
  · have hf : ⌊q⌋ < n := by
      have h1 : ((⌊q⌋ : ℤ) : ℚ) ≤ q := Int.floor_le q
      have h2 : ((⌊q⌋ : ℤ) : ℚ) < (n : ℚ) := lt_of_le_of_lt h1 hlt
      exact_mod_cast h2
    calc rhe q ≤ ⌊q⌋ + 1 := rhe_le_floor_add_one q
      _ ≤ n := by omega

theorem le_pyRound {d : Nat} {x : ℚ} {n : ℤ}
    (h : (n : ℚ) ≤ x * ((10 ^ d : ℕ) : ℚ)) :
    (n : ℚ) / ((10 ^ d : ℕ) : ℚ) ≤ pyRound d x := by
  unfold pyRound
  have hp : (0 : ℚ) < ((10 ^ d : ℕ) : ℚ) := by positivity
  have h2 : (n : ℚ) ≤ ((rhe (x * ((10 ^ d : ℕ) : ℚ)) : ℤ) : ℚ) := by
    exact_mod_cast le_rhe_of_int_le h
  exact div_le_div_of_nonneg_right h2 hp.le |>.trans_eq rfl

theorem pyRound_le {d : Nat} {x : ℚ} {n : ℤ}
    (h : x * ((10 ^ d : ℕ) : ℚ) ≤ (n : ℚ)) :
    pyRound d x ≤ (n : ℚ) / ((10 ^ d : ℕ) : ℚ) := by
  unfold pyRound
  have hp : (0 : ℚ) < ((10 ^ d : ℕ) : ℚ) := by positivity
  have h2 : ((rhe (x * ((10 ^ d : ℕ) : ℚ)) : ℤ) : ℚ) ≤ (n : ℚ) := by
    exact_mod_cast rhe_le_of_le_int h
  exact div_le_div_of_nonneg_right h2 hp.le |>.trans_eq rfl

/-- Evaluation rule for `pyRound` when the scaled value rounds down (in
particular when it is already an integer). -/
theorem pyRound_eval {d : Nat} {q : ℚ} {n : ℤ}
    (hn : (n : ℚ) ≤ q * ((10 ^ d : ℕ) : ℚ))
    (hlt : q * ((10 ^ d : ℕ) : ℚ) - (n : ℚ) < 1/2) :
    pyRound d q = (n : ℚ) / ((10 ^ d : ℕ) : ℚ) := by
  unfold pyRound
  have hf : ⌊q * ((10 ^ d : ℕ) : ℚ)⌋ = n := by
    rw [Int.floor_eq_iff]
    refine ⟨hn, ?_⟩
    push_cast at hlt ⊢
    linarith
  unfold rhe
  dsimp only
  rw [hf, if_pos hlt]

/-! ### Configuration (`config.py` defaults, no environment overrides) -/

structure AppSettings where
  STUB_MODE : Bool
  MAX_ARTICLES : Nat
  AUTO_CLOSE_ENABLED : Bool
  CONFIDENCE_THRESHOLD : ℚ
  ENHANCED_SEARCH_ENABLED : Bool
  RELEVANCE_THRESHOLD : ℚ
  SEMANTIC_WEIGHT : ℚ
  KEYWORD_WEIGHT : ℚ

/-- The `Settings` values with no environment variables set. -/
def settings : AppSettings :=
  { STUB_MODE := true
    MAX_ARTICLES := 3
    AUTO_CLOSE_ENABLED := true
    CONFIDENCE_THRESHOLD := 0.78
    ENHANCED_SEARCH_ENABLED := true
    RELEVANCE_THRESHOLD := 1
    SEMANTIC_WEIGHT := 0.3
    KEYWORD_WEIGHT := 0.7 }

/-! ### Data model -/

/-- A KB article as consumed by `search.py` / `llm_provider.py`.
`hasTimestamps` models `'updatedAt' in doc or 'createdAt' in doc`;
`status` models `doc.get('status')` (`none` = key absent). -/
structure Article where
  id : String
  title : String
  body : String
  tags : List String
  hasTimestamps : Bool
  status : Option String
deriving DecidableEq

structure Ticket where
  id : String
  title : String
  description : String
deriving DecidableEq

/-! ### `search.py` — relevance engine -/

/-- Query tokenization of `enhanced_keyword_score`: `\b\w+\b` tokens of the
lower-cased query, keeping only words longer than 2 characters (duplicates
and order retained). -/
def queryTokens (q : String) : List String :=
  (wordTokens (lowerStr q)).filter (fun w => w.length > 2)

/-- The `title_matches` count of `enhanced_keyword_score`: summed `title.count(word)`
over query tokens present in the title. -/
def titleMatchCount (qw : List String) (title : String) : Nat :=
  qw.foldl (fun acc w => if pyIn w title then acc + pyCount w title else acc) 0

/-- The flat `+10.0` bonus of the title loop, added once per query token
present in the title (the loop's redundant `word in query.lower()` retest
is kept). -/
def titlePhraseBonus (q : String) (qw : List String) (title : String) : ℚ :=
  qw.foldl (fun acc w =>
    if pyIn w title then
      (if pyIn w (lowerStr q) && pyIn w title then acc + 10 else acc)
    else acc) 0

/-- The `body_matches` count of `enhanced_keyword_score`. -/
def bodyMatchCount (qw : List String) (body : String) : Nat :=
  qw.foldl (fun acc w => if pyIn w body then acc + pyCount w body else acc) 0

/-- The tag-matching double loop of `enhanced_keyword_score`: `+3.0` for
every (query token, tag) pair with the token a substring of the tag. -/
def tagScore (qw : List String) (tags : List String) : ℚ :=
  qw.foldl (fun acc w =>
    tags.foldl (fun acc2 tg => if pyIn w tg then acc2 + 3 else acc2) acc) 0

/-- The exact-phrase bonus of `enhanced_keyword_score`. -/
def phraseBonus (q title body : String) : ℚ :=
  if pyIn (lowerStr q) title then 15
  else if pyIn (lowerStr q) body then 5
  else 0

/-- The word-density bonus of `enhanced_keyword_score`. -/
def densityBonus (titleMatches bodyMatches : Nat) (title body : String) : ℚ :=
  let totalWords := (pySplitWs title).length + (pySplitWs body).length
  if totalWords > 0 then
    (((titleMatches + bodyMatches : ℕ) : ℚ) / (totalWords : ℚ)) * 10
  else 0

/-- The multiple-word coverage bonus of `enhanced_keyword_score`. -/
def coverageBonus (qw : List String) (title body : String) : ℚ :=
  let uniqueMatches := (qw.dedup.filter
    (fun w => (pySplitWs title ++ pySplitWs body).contains w)).length
  if qw.length > 1 then ((uniqueMatches : ℚ) / (qw.length : ℚ)) * 5
  else 0

/-- The function `search.enhanced_keyword_score`, written as the sum of its sequentially
accumulated components. -/
def enhanced_keyword_score (q : String) (d : Article) : ℚ :=
  let title := lowerStr d.title
  let body := lowerStr d.body
  let tags := d.tags.map lowerStr
  let qw := queryTokens q
  if qw = [] then 0
  else
    titlePhraseBonus q qw title
    + (titleMatchCount qw title : ℚ) * 5
    + (bodyMatchCount qw body : ℚ) * 1
    + tagScore qw tags
    + phraseBonus q title body
    + densityBonus (titleMatchCount qw title) (bodyMatchCount qw body) title body
    + coverageBonus qw title body

/-- Python `re.findall` of word runs of length at least 3: the maximal word runs of length ≥ 3. -/
def wordTokensMin3 (s : String) : List String :=
  ((runsBy isWordChar s.data).filter (fun l => l.length ≥ 3)).map (fun l => ⟨l⟩)

/-- The function `search.semantic_similarity_score`: Jaccard overlap of the ≥3-letter
word sets of query and document. -/
def semantic_similarity_score (q : String) (d : Article) : ℚ :=
  let text := lowerStr d.title ++ " " ++ lowerStr d.body
  let queryTerms := (wordTokensMin3 (lowerStr q)).dedup
  let docTerms := (wordTokensMin3 text).dedup
  if queryTerms = [] ∨ docTerms = [] then 0
  else
    let inter := (queryTerms.filter (fun w => docTerms.contains w)).length
    let uni := (queryTerms ++ docTerms).dedup.length
    if uni = 0 then 0 else (inter : ℚ) / (uni : ℚ)

/-- The function `search.simple_keyword_score` (legacy scoring). -/
def simple_keyword_score (q : String) (d : Article) : ℚ :=
  let text := lowerStr (d.title ++ " " ++ d.body)
  let qset := (pySplitWs (lowerStr q)).dedup
  ((qset.foldl (fun acc w => acc + pyCount w text) 0 : ℕ) : ℚ)
  + ((qset.foldl
      (fun acc w => acc + d.tags.countP (fun t => pyIn w (lowerStr t))) 0 : ℕ) : ℚ)

/-- The function `search.calculate_relevance_score`. -/
def calculate_relevance_score (q : String) (d : Article) : ℚ :=
  if !settings.ENHANCED_SEARCH_ENABLED then simple_keyword_score q d
  else
    let combined := enhanced_keyword_score q d * settings.KEYWORD_WEIGHT
      + semantic_similarity_score q d * settings.SEMANTIC_WEIGHT * 20
    let combined := if d.hasTimestamps then combined + 0.5 else combined
    let combined := if d.status = some "published" then combined + 0.3 else combined
    combined

/-- Stable insertion keeping descending score order: the new entry goes
after all existing entries with a strictly larger score and before equal
ones inserted later, which is the behaviour of Python's stable
`list.sort(key=..., reverse=True)`. -/
def insertDesc (x : Article × ℚ) : List (Article × ℚ) → List (Article × ℚ)
  | [] => [x]
  | y :: ys => if x.2 < y.2 then y :: insertDesc x ys else x :: y :: ys

/-- Stable sort, descending by score. -/
def sortDesc : List (Article × ℚ) → List (Article × ℚ)
  | [] => []
  | x :: xs => insertDesc x (sortDesc xs)

/-- The scoring/filter loop of `search.top_k`: each article paired with its
relevance score, keeping those with score ≥ the relevance threshold. -/
def scoredOf (q : String) (kb : List Article) : List (Article × ℚ) :=
  kb.filterMap (fun d =>
    if settings.RELEVANCE_THRESHOLD ≤ calculate_relevance_score q d
    then some (d, calculate_relevance_score q d) else none)

/-- The function `search.top_k`. -/
def top_k (q : String) (kb : List Article) (k : Nat) : List (Article × ℚ) :=
  if pyStrip q = "" ∨ kb = [] then []
  else (sortDesc (scoredOf q kb)).take k

/-! ### Lemmas on the stable descending sort -/

theorem mem_insertDesc {x y : Article × ℚ} {l : List (Article × ℚ)} :
    y ∈ insertDesc x l ↔ y = x ∨ y ∈ l := by
  induction l with
  | nil => simp [insertDesc]
  | cons z zs ih =>
    simp only [insertDesc]
    split
    · simp only [List.mem_cons, ih]
      tauto
    · simp only [List.mem_cons]

theorem length_insertDesc (x : Article × ℚ) (l : List (Article × ℚ)) :
    (insertDesc x l).length = l.length + 1 := by
  induction l with
  | nil => rfl
  | cons z zs ih =>
    simp only [insertDesc]
    split
    · simp [ih]
    · simp

theorem length_sortDesc (l : List (Article × ℚ)) :
    (sortDesc l).length = l.length := by
  induction l with
  | nil => rfl
  | cons x xs ih => simp [sortDesc, length_insertDesc, ih]

theorem pairwise_insertDesc {x : Article × ℚ} {l : List (Article × ℚ)}
    (h : l.Pairwise (fun a b => b.2 ≤ a.2)) :
    (insertDesc x l).Pairwise (fun a b => b.2 ≤ a.2) := by
  induction l with
  | nil => simp [insertDesc]
  | cons z zs ih =>
    rcases List.pairwise_cons.mp h with ⟨hz, hzs⟩
    simp only [insertDesc]
    split
    · rename_i hlt
      refine List.pairwise_cons.mpr ⟨?_, ih hzs⟩
      intro y hy
      rcases mem_insertDesc.mp hy with rfl | hmem
      · exact le_of_lt hlt
      · exact hz y hmem
    · rename_i hge
      refine List.pairwise_cons.mpr ⟨?_, h⟩
      intro y hy
      rcases List.mem_cons.mp hy with rfl | hmem
      · exact le_of_not_lt hge
      · exact le_trans (hz y hmem) (le_of_not_lt hge)

theorem pairwise_sortDesc (l : List (Article × ℚ)) :
    (sortDesc l).Pairwise (fun a b => b.2 ≤ a.2) := by
  induction l with
  | nil => simp [sortDesc]
  | cons x xs ih => exact pairwise_insertDesc ih

theorem mem_sortDesc {y : Article × ℚ} {l : List (Article × ℚ)} :
    y ∈ sortDesc l ↔ y ∈ l := by
  induction l with
  | nil => simp [sortDesc]
  | cons x xs ih => simp [sortDesc, mem_insertDesc, ih]

theorem filter_insertDesc (x : Article × ℚ) (l : List (Article × ℚ)) (s : ℚ) :
    (insertDesc x l).filter (fun p => p.2 = s)
      = if x.2 = s then x :: l.filter (fun p => p.2 = s)
        else l.filter (fun p => p.2 = s) := by
  induction l with
  | nil =>
    by_cases hx : x.2 = s <;> simp [insertDesc, List.filter, hx]
  | cons z zs ih =>
    simp only [insertDesc]
    split
    · rename_i hlt
      by_cases hz : z.2 = s
      · have hx : ¬ x.2 = s := by
          intro hxx
          rw [hxx, ← hz] at hlt
          exact lt_irrefl _ hlt
        simp [List.filter_cons, hz, hx, ih]
      · simp [List.filter_cons, hz, ih]
    · by_cases hx : x.2 = s <;> simp [List.filter_cons, hx]

theorem filter_sortDesc (l : List (Article × ℚ)) (s : ℚ) :
    (sortDesc l).filter (fun p => p.2 = s) = l.filter (fun p => p.2 = s) := by
  induction l with
  | nil => rfl
  | cons x xs ih =>
    rw [sortDesc, filter_insertDesc, ih]
    by_cases hx : x.2 = s <;> simp [List.filter_cons, hx]

theorem scoredOf_score_ge {q : String} {kb : List Article} {p : Article × ℚ}
    (h : p ∈ scoredOf q kb) : settings.RELEVANCE_THRESHOLD ≤ p.2 := by
  rcases List.mem_filterMap.mp h with ⟨d, _, hd⟩
  by_cases hs : settings.RELEVANCE_THRESHOLD ≤ calculate_relevance_score q d
  · rw [if_pos hs] at hd
    cases hd
    exact hs
  · rw [if_neg hs] at hd
    cases hd

theorem scoredOf_length (q : String) (kb : List Article) :
    (scoredOf q kb).length
      = kb.countP (fun d =>
          settings.RELEVANCE_THRESHOLD ≤ calculate_relevance_score q d) := by
  induction kb with
  | nil => rfl
  | cons d ds ih =>
    simp only [scoredOf, List.filterMap_cons, List.countP_cons] at *
    by_cases hs : settings.RELEVANCE_THRESHOLD ≤ calculate_relevance_score q d
    · simp [hs, ih]
    · simp [hs, ih]

/-! ### `llm_provider.py` — keyword sets and classifier -/

def BILLING : List String := ["refund", "invoice", "charge", "card", "payment", "billing"]

def TECH : List String := ["error", "bug", "stack", "crash", "login", "auth", "trace"]

def SHIP : List String :=
  ["delivery", "shipment", "shipping", "package", "track", "courier", "delayed"]

def billingIndicators : List String :=
  ["money", "cost", "price", "subscription", "account", "plan", "charged", "fee",
   "transaction"]

def techIndicators : List String :=
  ["broken", "not working", "cannot", "can't", "issue", "problem", "fix", "support",
   "help"]

def shippingIndicators : List String :=
  ["order", "product", "item", "received", "arrive", "delivery", "package", "sent"]

/-- The per-category raw score of the stub classifier: 3 × occurrence count
for each primary keyword present in the text, plus 1 × occurrence count for
each secondary indicator present. -/
def catRawScore (keywords indicators : List String) (t : String) : Nat :=
  keywords.foldl (fun acc w => if pyIn w t then acc + pyCount w t * 3 else acc) 0
  + indicators.foldl (fun acc w => if pyIn w t then acc + pyCount w t else acc) 0

/-- The `score` dict of the stub classifier, in its insertion order. -/
def stubScorePairs (t : String) : List (String × Nat) :=
  [("billing", catRawScore BILLING billingIndicators t),
   ("tech", catRawScore TECH techIndicators t),
   ("shipping", catRawScore SHIP shippingIndicators t),
   ("other", 0)]

/-- Python's `max(pairs, key=value)`: the first pair attaining the maximal
value.  The score dicts have distinct keys, so returning the whole pair is
equivalent to `max(score, key=score.get)` followed by `score[cat]`. -/
def pyMaxByVal : List (String × Nat) → (String × Nat)
  | [] => ("", 0)
  | p :: ps => ps.foldl (fun best q => if q.2 > best.2 then q else best) p

/-- Python's `max(score.values())` (all values are naturals). -/
def maxVal (l : List (String × Nat)) : Nat := (l.map Prod.snd).foldl max 0

/-- The billing raw score of the stub classifier (on un-lowered input, as
`classify` computes it after lower-casing). -/
def billingScore (text : String) : Nat :=
  catRawScore BILLING billingIndicators (lowerStr text)

/-- The stub-mode branch of `LLMProvider.classify` (deterministic
heuristic). -/
def stubClassify (text : String) : String × ℚ :=
  let t := lowerStr text
  let score := stubScorePairs t
  let maxScore := maxVal score
  if maxScore = 0 then ("other", 0.3)
  else
    let winner := (pyMaxByVal score).1
    let textWords := (pySplitWs t).length
    let keywordDensity : ℚ := (maxScore : ℚ) / ((max 1 textWords : ℕ) : ℚ)
    let confidenceBase := min 0.9 (keywordDensity * 2)
    let otherScores := (score.filter (fun p => p.1 ≠ winner)).map Prod.snd
    let confidenceBase :=
      if otherScores ≠ [] then
        let maxOther := otherScores.foldl max 0
        confidenceBase
          + ((maxScore : ℚ) - (maxOther : ℚ)) / ((max 1 maxScore : ℕ) : ℚ) * 0.3
      else confidenceBase
    let confidenceBase :=
      if maxScore ≥ 5 then confidenceBase + 0.2
      else if maxScore ≥ 3 then confidenceBase + 0.1
      else confidenceBase
    (winner, pyRound 3 (max 0.3 (min 0.95 confidenceBase)))

/-- Python `float(s)` restricted to optionally signed decimal literals
(`"0.8"`, `".5"`, `"5."`, `"12"`); other accepted CPython spellings
(exponents, `inf`, `nan`, underscores) are not modelled.  `none` models
`ValueError`. -/
def digitsVal (l : List Char) : Nat :=
  l.foldl (fun acc c => acc * 10 + (c.toNat - '0'.toNat)) 0

def pyFloat (s : String) : Option ℚ :=
  let l := (pyStrip s).data
  let sgn : ℚ := match l with | '-' :: _ => -1 | _ => 1
  let rest := match l with | '-' :: r => r | '+' :: r => r | r => r
  let intDigits := rest.takeWhile Char.isDigit
  let rest2 := rest.drop intDigits.length
  match rest2 with
  | [] => if intDigits = [] then none else some (sgn * (digitsVal intDigits : ℚ))
  | '.' :: frac =>
    let fracDigits := frac.takeWhile Char.isDigit
    if frac.drop fracDigits.length ≠ [] then none
    else if intDigits = [] ∧ fracDigits = [] then none
    else some (sgn * ((digitsVal intDigits : ℚ)
      + (digitsVal fracDigits : ℚ) / ((10 ^ fracDigits.length : ℕ) : ℚ)))
  | _ => none

/-- The confidence-string parsing of the model-backed classifier: accepts
plain decimals, percentages and fractions; any parse failure (or a zero
divisor, which raises in Python) is caught and yields `0.5`. -/
def parseConfStr (confStr : String) : ℚ :=
  if pyIn "%" confStr then
    match pyFloat ⟨confStr.data.filter (· != '%')⟩ with
    | some v => v / 100
    | none => 0.5
  else if pyIn "/" confStr then
    match splitOnCharCL '/' confStr.data with
    | p0 :: p1 :: _ =>
      (match pyFloat ⟨p0⟩, pyFloat ⟨p1⟩ with
       | some a, some b => if b = 0 then 0.5 else a / b
       | _, _ => 0.5)
    | _ => 0.5
  else
    match pyFloat confStr with
    | some v => v
    | none => 0.5

/-- The line-parsing loop of the model-backed classifier (category and
confidence; the `Reasoning:` line does not affect either). -/
def parseClassifyLines (lines : List String) : String × ℚ :=
  lines.foldl (fun (st : String × ℚ) line =>
    let line := pyStrip line
    if pyStartsWith "Category:" line then
      (lowerStr (pyStrip (afterFirstChar ':' line)), st.2)
    else if pyStartsWith "Confidence:" line then
      (st.1, parseConfStr (pyStrip (afterFirstChar ':' line)))
    else st) ("other", 0.5)

def validCategories : List String := ["billing", "tech", "shipping", "other"]

/-- The synonym table applied to unrecognized model categories. -/
def categoryMapping : List (String × String) :=
  [("technical", "tech"), ("technology", "tech"), ("bug", "tech"),
   ("payment", "billing"), ("financial", "billing"), ("invoice", "billing"),
   ("delivery", "shipping"), ("logistics", "shipping"), ("transport", "shipping")]

/-- The successful-call branch of the model-backed `LLMProvider.classify`. -/
def parseClassifyResponse (respText : String) : String × ℚ :=
  let parsed := parseClassifyLines (splitLines (pyStrip respText))
  let category :=
    if validCategories.contains parsed.1 then parsed.1
    else (categoryMapping.lookup parsed.1).getD "other"
  (category, pyRound 2 (max 0 (min 1 parsed.2)))

/-- The non-stub branch of `LLMProvider.classify`: `some respText` models a
successful external call returning `respText`; `none` models a raised
error, handled by the inline keyword-count fallback. -/
def geminiClassify (oracle : Option String) (text : String) : String × ℚ :=
  match oracle with
  | some respText => parseClassifyResponse respText
  | none =>
    let t := lowerStr text
    let score : List (String × Nat) :=
      [("billing", BILLING.foldl (fun acc w => acc + pyCount w t) 0),
       ("tech", TECH.foldl (fun acc w => acc + pyCount w t) 0),
       ("shipping", SHIP.foldl (fun acc w => acc + pyCount w t) 0),
       ("other", 0)]
    let best := pyMaxByVal score
    let conf : ℚ := if best.2 > 0 then min 1 ((best.2 : ℚ) / 3) else 0.3
    ((if best.2 > 0 then best.1 else "other"), pyRound 2 conf)

/-! ### `llm_provider.py` — drafter -/

/-- The fixed no-article template of the stub drafter. -/
def stubNoArticleTemplate : String :=
  "Hello,\n\nThank you for contacting our support team. We've received your inquiry and are reviewing it carefully.\n\nOur team will respond within 24 hours with detailed assistance tailored to your specific needs.\n\nPlease don't hesitate to reply if you have any additional questions in the meantime.\n\nBest regards,\nCustomer Support Team"

def urgencyWords : List String := ["urgent", "critical", "immediately", "asap", "emergency"]

/-- The `response_parts` list of the stub drafter. -/
def stubResponseParts (isUrgent : Bool) (articleTitle articleId : String) :
    List String :=
  ["Hello,",
   "",
   "Thank you for contacting our support team" ++
     (if isUrgent then " regarding your urgent request" else "") ++ ".",
   "",
   "Based on our knowledge base, here are the steps to resolve your issue:",
   "",
   "1. **Log into your account** using your credentials",
   "2. **Navigate to the appropriate section** as described in the documentation",
   "3. **Follow the step-by-step instructions** provided in the guide",
   "4. **Verify the changes** have been applied successfully",
   "5. **Contact our support team** if you encounter any difficulties",
   "",
   "Note: These steps are based on our comprehensive " ++ lowerStr articleTitle ++
     " documentation.",
   "",
   "This information is based on [Article #" ++ articleId ++
     "]. Please reply if you need further assistance!",
   "",
   "Best regards,",
   "Customer Support Team"]

/-- The stub-mode branch of `LLMProvider.draft`: reply text and citations. -/
def stubDraft (text : String) (articles : List Article) : String × List String :=
  match articles with
  | [] => (stubNoArticleTemplate, [])
  | best :: _ =>
    let textLower := lowerStr text
    let isUrgent := urgencyWords.any (fun w => pyIn w textLower)
    (joinWith "\n" (stubResponseParts isUrgent best.title best.id), [best.id])

/-- The no-article template of the model-backed drafter. -/
def geminiNoArticleTemplate : String :=
  "Hello,\n\nThank you for contacting our support team. We've received your inquiry and will review it thoroughly.\n\nOur team will respond within 24 hours with detailed assistance tailored to your specific needs.\n\nPlease don't hesitate to reply if you have any additional questions in the meantime.\n\nBest regards,\nCustomer Support Team"

/-- The trailing lines stripped by `_ensure_proper_formatting` before the
canonical closing is appended. -/
def isStrippableClosing (line : String) : Bool :=
  pyStrip line = "" || pyStrip line = "Best regards" || pyStrip line = "Sincerely"
    || pyStrip line = "Thank you"

/-- The method `_ensure_proper_formatting` of `LLMProvider` (its `original_request`
parameter is unused by the body and dropped here). -/
def ensureProperFormatting (responseText kbId : String) : String :=
  let lines := splitLines responseText
  let lines :=
    if !(["Hello", "Hi", "Dear"].any
        (fun g => pyStartsWith g (pyStrip (lines.headD "")))) then
      "Hello," :: "" :: lines
    else lines
  let hasCitation := pyIn ("[Article #" ++ kbId ++ "]") responseText
  let lastThree := lines.drop (lines.length - 3)
  let hasProperClosing := lastThree.any
    (fun line => pyIn "Best regards" line || pyIn "Sincerely" line)
  if !hasCitation || !hasProperClosing then
    let closingLines :=
      ["",
       "This information is based on [Article #" ++ kbId ++
         "]. Please reply if you need further assistance!",
       "",
       "Best regards,",
       "Customer Support Team"]
    joinWith "\n" ((lines.reverse.dropWhile isStrippableClosing).reverse ++ closingLines)
  else joinWith "\n" lines

/-- Case-insensitive literal match; on success returns the characters
following the literal. -/
def matchCI : List Char → List Char → Option (List Char)
  | [], rest => some rest
  | _ :: _, [] => none
  | l :: ls, c :: cs => if l.toLower = c.toLower then matchCI ls cs else none

/-- Python `re.findall` scanning with explicit fuel (each step advances at least
one character, so fuel = list length is enough; the fuel only makes the
recursion structural). -/
def scanPatternFuel (lit : List Char) (needsBracket : Bool) :
    Nat → List Char → List String
  | 0, _ => []
  | _ + 1, [] => []
  | fuel + 1, c :: rest =>
    match matchCI lit (c :: rest) with
    | some after =>
      if after.takeWhile isWordChar = [] then scanPatternFuel lit needsBracket fuel rest
      else if needsBracket then
        match after.drop (after.takeWhile isWordChar).length with
        | ']' :: rest2 =>
          (⟨after.takeWhile isWordChar⟩ : String)
            :: scanPatternFuel lit needsBracket fuel rest2
        | _ => scanPatternFuel lit needsBracket fuel rest
      else
        (⟨after.takeWhile isWordChar⟩ : String) ::
          scanPatternFuel lit needsBracket fuel
            (after.drop (after.takeWhile isWordChar).length)
    | none => scanPatternFuel lit needsBracket fuel rest

/-- Python `re.findall` with `re.IGNORECASE` for the citation patterns
`lit(\w+)` or `lit(\w+)]`: scan left to right; at a position, match the
literal, then a non-empty greedy `\w+` capture, then (for the bracketed
patterns) a closing `]`; after a match continue past it, otherwise advance
one character.  Returns the captured groups in order. -/
def scanPattern (lit : List Char) (needsBracket : Bool) (l : List Char) :
    List String :=
  scanPatternFuel lit needsBracket l.length l

/-- The method `_extract_citations` of `LLMProvider`: collect the capture groups of the
three citation patterns in pattern order, keep (deduplicated, first-seen
order) those equal to a supplied article id, and fall back to the first
article's id when none were found but articles exist. -/
def extractCitations (responseText : String) (articles : List Article) :
    List String :=
  let ms := scanPattern "Article #".data false responseText.data
    ++ scanPattern "[Article #".data true responseText.data
    ++ scanPattern "[#".data true responseText.data
  let citations := ms.foldl (fun acc m =>
    articles.foldl (fun acc2 a =>
      if a.id = m then (if m ∈ acc2 then acc2 else acc2 ++ [m]) else acc2) acc) []
  if citations = [] then
    match articles with
    | [] => citations
    | a :: _ => [a.id]
  else citations

/-- The fixed fallback template of the model-backed drafter (used when the
external call raised). -/
def geminiFallbackDraft (articleTitle articleId : String) : String :=
  "Hello,\n\nThank you for contacting our support team regarding your inquiry.\n\nBased on " ++ articleTitle ++ ", here are the recommended steps:\n\n1. **Review the relevant documentation** in your account settings\n2. **Follow the step-by-step process** as outlined in our guide\n3. **Verify each step** is completed successfully before proceeding\n4. **Contact our support team** if you encounter any issues during the process\n\nNote: These instructions are based on our standard resolution procedures.\n\nThis information is from [Article #" ++ articleId ++ "]. Please reply if you need further assistance!\n\nBest regards,\nCustomer Support Team"

/-- The non-stub branch of `LLMProvider.draft`.  The empty-articles check
precedes the external call, so the exception handler (which cites the top
article) only runs with articles present; its defensive
`if articles else None` arm is unreachable and not modelled. -/
def geminiDraft (oracle : Option String) (text : String) (articles : List Article) :
    String × List String :=
  match articles with
  | [] => (geminiNoArticleTemplate, [])
  | best :: _ =>
    match oracle with
    | some modelText =>
      let responseText := ensureProperFormatting (pyStrip modelText) best.id
      (responseText, extractCitations responseText articles)
    | none => (geminiFallbackDraft best.title best.id, [best.id])

/-! ### `pipeline.py` — orchestrator and decision engine -/

/-- The classify/draft interface consumed by the pipeline (the module-level
`provider` object).  `stubProvider` is the STUB_MODE instantiation;
`geminiProvider` the model-backed one with its two call oracles. -/
structure Provider where
  classify : String → String × ℚ
  draft : String → List Article → String × List String

def stubProvider : Provider := ⟨stubClassify, stubDraft⟩

def geminiProvider (classifyOracle draftOracle : Option String) : Provider :=
  ⟨geminiClassify classifyOracle, geminiDraft draftOracle⟩

/-- The effective retrieval `max_articles` from `TriagePlanner.plan` (the
pipeline reads it off the plan's retrieval step): raised for long tickets. -/
def maxArticlesForText (textLength : Nat) : Nat :=
  if textLength > 500 then min 5 (settings.MAX_ARTICLES + 2)
  else settings.MAX_ARTICLES

/-- Python `max(scores)` for a nonempty list, `0` otherwise (the pipeline's
`max(retrieval_scores) if retrieval_scores else 0`). -/
def listMaxD : List ℚ → ℚ
  | [] => 0
  | x :: xs => xs.foldl max x

/-- The draft-quality score of the decision step (`draft_quality_score`). -/
def draftQualityScore (draftText : String) (citationsCount : Nat) : ℚ :=
  let base : ℚ := 0.3
  let q :=
    if draftText ≠ "" then
      let wordCount := (pySplitWs draftText).length
      let q1 :=
        if 50 ≤ wordCount ∧ wordCount ≤ 400 then base + 0.2
        else if 20 ≤ wordCount then base + 0.1 else base
      let formattingScore :=
        (if ["Hello", "Hi", "Dear"].any (fun g => pyIn g draftText) then (0.05 : ℚ) else 0)
        + (if ["1.", "2.", "3.", "4.", "5.", "6.", "7.", "8.", "9."].any
            (fun p => pyIn p draftText) then 0.1 else 0)
        + (if pyIn "**" draftText then 0.05 else 0)
        + (if pyIn "Note:" draftText then 0.05 else 0)
        + (if pyIn "Best regards" draftText || pyIn "Sincerely" draftText then 0.05 else 0)
        + (if pyIn "[Article #" draftText then 0.1 else 0)
      let q2 := q1 + formattingScore
      let q3 := if citationsCount > 0 then q2 + 0.1 else q2
      if citationsCount ≥ 1 then q3 + 0.05 else q3
    else base
  min 1 q

/-- The retrieval-quality factor of the decision step. -/
def retrievalQuality (retrievalScores : List ℚ) : ℚ :=
  if retrievalScores = [] then 0.3
  else
    let maxR := listMaxD retrievalScores
    let rq : ℚ :=
      if maxR ≥ 15 then 0.9 + min 0.1 ((maxR - 15) / 20)
      else if maxR ≥ 5 then 0.6 + (maxR - 5) / (15 - 5) * 0.3
      else if maxR ≥ 1 then 0.3 + (maxR - 1) / (5 - 1) * 0.3
      else 0.3
    let highQualityCount := retrievalScores.countP (fun s => s ≥ 5)
    if highQualityCount > 1 then min 1 (rq + 0.05 * ((highQualityCount - 1 : ℕ) : ℚ))
    else rq

/-- The KB-coverage factor of the decision step. -/
def kbCoverageQuality (retrievalScores : List ℚ) (kbLen : Nat) (maxScore : ℚ) : ℚ :=
  if kbLen > 0 then
    let relevantMatches := retrievalScores.countP (fun s => s ≥ 1)
    let quality := min 1 (0.3 + ((relevantMatches : ℚ) / (kbLen : ℚ)) * 0.7)
    if maxScore ≥ 10 then min 1 (quality + 0.1) else quality
  else 0.3

structure ConfidenceFactors where
  classification : ℚ
  retrieval : ℚ
  draft : ℚ
  coverage : ℚ
  boostApplied : ℚ
  penaltyApplied : ℚ
deriving DecidableEq

/-- The response of `run_pipeline`.  The `modelInfo` block and the timing
fields are process metadata (wall clock, provider name) and are not
modelled; the `quality` block's pure fields are. -/
structure TriageResult where
  predictedCategory : String
  draftReply : String
  citations : List String
  confidence : ℚ
  originalConfidence : ℚ
  confidenceFactors : ConfidenceFactors
  stepLogs : List String
  retrievalQualityMetric : ℚ
  draftQualityMetric : ℚ
  citationCount : Nat
  responseLength : Nat
  kbCoverage : ℚ
deriving DecidableEq

/-- The function `pipeline.run_pipeline`.  The provider is explicit (Python calls the
module-level `provider` object); `traceId` feeds only unmodelled log
metadata.  Step-log entries are modelled by their `action` strings; the
`PIPELINE_COMPLETED` entry is appended to the same `steps` list object the
response already references, so it appears in the returned `stepLogs`. -/
def run_pipeline (P : Provider) (traceId : String) (ticket : Ticket)
    (kb : List Article) : TriageResult :=
  let _ := traceId
  let text := ticket.title ++ " " ++ ticket.description
  let steps := ["PIPELINE_STARTED"]
  let classification := P.classify text
  let steps := steps ++ ["AGENT_CLASSIFIED"]
  let maxArticles := maxArticlesForText text.length
  let searchResults := top_k text kb maxArticles
  let selectedArticles := searchResults.map Prod.fst
  let retrievalScores := searchResults.map Prod.snd
  let steps := steps ++ ["KB_RETRIEVED"]
  let maxScore := listMaxD retrievalScores
  let draftResult := P.draft text selectedArticles
  let draftText := draftResult.1
  let dq := draftQualityScore draftText draftResult.2.length
  let steps := steps ++ ["DRAFT_GENERATED"]
  let baseConfidence := classification.2
  let rq := retrievalQuality retrievalScores
  let cov := kbCoverageQuality retrievalScores kb.length maxScore
  let confidenceBoost : ℚ :=
    (if rq > 0.85 then 0.15 else if rq > 0.7 then 0.1 else if rq > 0.5 then 0.05 else 0)
    + (if dq > 0.9 then 0.1 else if dq > 0.7 then 0.05 else 0)
    + (if cov > 0.8 then 0.05 else 0)
    + (if dq > 0.8 ∧ rq > 0.7 then 0.05 else 0)
  let confidencePenalty : ℚ :=
    (if (pySplitWs text).length < 3 then 0.15
     else if (pySplitWs text).length < 8 then 0.05 else 0)
    + (if selectedArticles = [] then 0.25 else if maxScore < 1 then 0.1 else 0)
    + (if classification.1 = "other" then 0.1 else 0)
  let finalConfidence := baseConfidence + confidenceBoost - confidencePenalty
  let finalConfidence := max 0.1 (min 1 finalConfidence)
  let steps := steps ++ ["DECISION_COMPUTED"]
  let steps := steps ++ ["PIPELINE_COMPLETED"]
  { predictedCategory := classification.1
    draftReply := draftText
    citations := draftResult.2
    confidence := pyRound 3 finalConfidence
    originalConfidence := baseConfidence
    confidenceFactors :=
      { classification := baseConfidence
        retrieval := rq
        draft := dq
        coverage := cov
        boostApplied := confidenceBoost
        penaltyApplied := confidencePenalty }
    stepLogs := steps
    retrievalQualityMetric := pyRound 3 maxScore
    draftQualityMetric := pyRound 3 dq
    citationCount := draftResult.2.length
    responseLength := draftText.length
    kbCoverage := pyRound 3 ((selectedArticles.length : ℚ) / ((max 1 kb.length : ℕ) : ℚ)) }

/-! ### Lemmas: occurrence counting is monotone under appending text -/

theorem countOccGo_nil (p : List Char) : countOccGo p [] = 0 := rfl

theorem countOccGo_cons (p : List Char) (c : Char) (t : List Char) :
    countOccGo p (c :: t) =
      if p.isPrefixOf (c :: t) then 1 + countOccGo p (t.drop (p.length - 1))
      else countOccGo p t := by
  show countOccFuel p (t.length + 1) (c :: t) = _
  simp only [countOccFuel]
  by_cases hp : p.isPrefixOf (c :: t) = true
  · rw [if_pos hp, if_pos hp]
    have hd := List.length_drop (p.length - 1) t
    rw [countOccFuel_congr p t.length (t.drop (p.length - 1))
      (t.drop (p.length - 1)).length (by omega) (Nat.le_refl _)]
    rfl
  · rw [if_neg hp, if_neg hp]
    rfl

theorem containsSubCL_nil_left (l : List Char) : containsSubCL [] l = true := by
  cases l <;> simp [containsSubCL, List.isPrefixOf]

theorem countOccGo_eq_zero_of_not_contains (p : List Char) :
    ∀ t, containsSubCL p t = false → countOccGo p t = 0 := by
  intro t
  induction t with
  | nil => intro _; exact countOccGo_nil p
  | cons c cs ih =>
    intro h
    rw [countOccGo_cons]
    simp only [containsSubCL, Bool.or_eq_false_iff] at h
    rw [if_neg (by simp [h.1])]
    exact ih h.2

theorem countOccGo_eq_zero_of_length_lt (p : List Char) :
    ∀ (t : List Char), t.length < p.length → countOccGo p t = 0 := by
  intro t
  induction t with
  | nil => intro _; exact countOccGo_nil p
  | cons c cs ih =>
    intro h
    rw [countOccGo_cons]
    have hpre : ¬ p.isPrefixOf (c :: cs) = true := by
      intro hcon
      have := (List.isPrefixOf_iff_prefix.mp hcon).length_le
      omega
    rw [if_neg hpre]
    exact ih (by simp at h ⊢; omega)

theorem countOccGo_le_append (p : List Char) :
    ∀ (n : Nat) (t s : List Char), t.length ≤ n →
      countOccGo p t ≤ countOccGo p (t ++ s) := by
  intro n
  induction n with
  | zero =>
    intro t s ht
    match t with
    | [] => rw [countOccGo_nil]; exact Nat.zero_le _
    | c :: cs => simp at ht
  | succ n ih =>
    intro t s ht
    match t with
    | [] => rw [countOccGo_nil]; exact Nat.zero_le _
    | c :: cs =>
      rw [List.cons_append, countOccGo_cons, countOccGo_cons]
      by_cases hp : p.isPrefixOf (c :: cs) = true
      · have hp2 : p.isPrefixOf (c :: (cs ++ s)) = true := by
          rw [List.isPrefixOf_iff_prefix] at hp ⊢
          exact hp.trans (List.prefix_append (c :: cs) s)
        rw [if_pos hp, if_pos hp2]
        have hlen : (cs.drop (p.length - 1)).length ≤ n := by
          simp only [List.length_cons] at ht
          have := List.length_drop (p.length - 1) cs
          omega
        have hstep := ih (cs.drop (p.length - 1))
          (s.drop (p.length - 1 - cs.length)) hlen
        rw [← List.drop_append_eq_append_drop] at hstep
        exact Nat.add_le_add_left hstep 1
      · by_cases hp2 : p.isPrefixOf (c :: (cs ++ s)) = true
        · rw [if_neg hp, if_pos hp2]
          have hlong : (c :: cs).length < p.length := by
            by_contra hcon
            push_neg at hcon
            apply hp
            rw [List.isPrefixOf_iff_prefix] at hp2 ⊢
            have htake := List.prefix_iff_eq_take.mp hp2
            have hsplit : (c :: (cs ++ s)) = (c :: cs) ++ s := rfl
            have htake2 : p = (c :: cs).take p.length := by
              conv_lhs => rw [htake]
              rw [hsplit, List.take_append_of_le_length hcon]
            rw [htake2]
            exact List.take_prefix _ _
          have hz : countOccGo p cs = 0 := by
            apply countOccGo_eq_zero_of_length_lt
            simp only [List.length_cons] at hlong
            omega
          rw [hz]
          exact Nat.zero_le _
        · rw [if_neg hp, if_neg hp2]
          exact ih cs s (by simp only [List.length_cons] at ht; omega)

theorem data_append (t s : String) : (t ++ s).data = t.data ++ s.data := rfl

theorem pyCount_le_append (w t s : String) : pyCount w t ≤ pyCount w (t ++ s) := by
  unfold pyCount
  by_cases h : w.data = []
  · rw [if_pos h, if_pos h, data_append]
    simp
  · rw [if_neg h, if_neg h, data_append]
    exact countOccGo_le_append _ t.data.length _ _ (Nat.le_refl _)

theorem pyCount_eq_zero_of_not_pyIn {w t : String} (h : pyIn w t = false) :
    pyCount w t = 0 := by
  unfold pyCount
  have hw : ¬ w.data = [] := by
    intro hcon
    unfold pyIn at h
    rw [hcon, containsSubCL_nil_left] at h
    cases h
  rw [if_neg hw]
  exact countOccGo_eq_zero_of_not_contains _ _ h

theorem ifPyIn_add_mul (w t : String) (acc k : Nat) :
    (if pyIn w t then acc + pyCount w t * k else acc) = acc + pyCount w t * k := by
  by_cases h : pyIn w t = true
  · rw [if_pos h]
  · rw [if_neg h, pyCount_eq_zero_of_not_pyIn (Bool.eq_false_iff.mpr h)]
    simp

theorem ifPyIn_add (w t : String) (acc : Nat) :
    (if pyIn w t then acc + pyCount w t else acc) = acc + pyCount w t := by
  by_cases h : pyIn w t = true
  · rw [if_pos h]
  · rw [if_neg h, pyCount_eq_zero_of_not_pyIn (Bool.eq_false_iff.mpr h)]
    omega

theorem foldl_add_le {α : Type} (g h : α → Nat) (ws : List α)
    (hgh : ∀ w ∈ ws, g w ≤ h w) :
    ∀ (a b : Nat), a ≤ b →
      ws.foldl (fun acc w => acc + g w) a ≤ ws.foldl (fun acc w => acc + h w) b := by
  induction ws with
  | nil => intro a b hab; exact hab
  | cons w ws ih =>
    intro a b hab
    exact ih (fun x hx => hgh x (List.mem_cons_of_mem _ hx)) _ _
      (Nat.add_le_add hab (hgh w (List.mem_cons_self _ _)))

theorem catRawScore_le_append (keywords indicators : List String) (t s : String) :
    catRawScore keywords indicators t ≤ catRawScore keywords indicators (t ++ s) := by
  unfold catRawScore
  apply Nat.add_le_add
  · have h1 : ∀ (u : String),
        (fun (acc : Nat) w => if pyIn w u then acc + pyCount w u * 3 else acc)
          = (fun acc w => acc + pyCount w u * 3) := by
      intro u; funext acc w; exact ifPyIn_add_mul w u acc 3
    rw [h1, h1]
    exact foldl_add_le _ _ _
      (fun w _ => Nat.mul_le_mul_right 3 (pyCount_le_append w t s)) 0 0 (Nat.le_refl 0)
  · have h2 : ∀ (u : String),
        (fun (acc : Nat) w => if pyIn w u then acc + pyCount w u else acc)
          = (fun acc w => acc + pyCount w u) := by
      intro u; funext acc w; exact ifPyIn_add w u acc
    rw [h2, h2]
    exact foldl_add_le _ _ _
      (fun w _ => pyCount_le_append w t s) 0 0 (Nat.le_refl 0)

theorem lowerStr_append (t s : String) :
    lowerStr (t ++ s) = lowerStr t ++ lowerStr s := by
  show String.mk ((t.data ++ s.data).map Char.toLower)
    = String.mk (t.data.map Char.toLower ++ s.data.map Char.toLower)
  rw [List.map_append]



/-! ### Lemmas: take/filter, citation extraction, argmax, tag score -/

theorem filter_take_prefix {α : Type} (p : α → Bool) (l : List α) (k : Nat) :
    (l.take k).filter p <+: l.filter p := by
  conv_rhs => rw [← List.take_append_drop k l]
  rw [List.filter_append]
  exact List.prefix_append _ _

theorem foldl_inner_preserve (articles : List Article) (m : String) :
    ∀ (arts : List Article), (∀ a ∈ arts, a ∈ articles) →
    ∀ (acc : List String), (∀ c ∈ acc, ∃ a ∈ articles, c = a.id) →
    ∀ c ∈ arts.foldl (fun acc2 a =>
        if a.id = m then (if m ∈ acc2 then acc2 else acc2 ++ [m]) else acc2) acc,
      ∃ a ∈ articles, c = a.id := by
  intro arts
  induction arts with
  | nil => exact fun _ acc hacc c hc => hacc c hc
  | cons a as ih =>
    intro hsub acc hacc c hc
    simp only [List.foldl_cons] at hc
    refine ih (fun x hx => hsub x (List.mem_cons_of_mem _ hx)) _ ?_ c hc
    intro c' hc'
    by_cases hid : a.id = m
    · rw [if_pos hid] at hc'
      by_cases hmem : m ∈ acc
      · rw [if_pos hmem] at hc'
        exact hacc c' hc'
      · rw [if_neg hmem] at hc'
        rcases List.mem_append.mp hc' with h1 | h2
        · exact hacc c' h1
        · have hcm : c' = m := by simpa using h2
          exact ⟨a, hsub a (List.mem_cons_self _ _), by rw [hcm, hid]⟩
    · rw [if_neg hid] at hc'
      exact hacc c' hc'

theorem extractCitations_subset (responseText : String) (articles : List Article) :
    ∀ c ∈ extractCitations responseText articles, ∃ a ∈ articles, c = a.id := by
  have hfold : ∀ (ms : List String) (acc : List String),
      (∀ c ∈ acc, ∃ a ∈ articles, c = a.id) →
      ∀ c ∈ ms.foldl (fun acc m => articles.foldl (fun acc2 a =>
          if a.id = m then (if m ∈ acc2 then acc2 else acc2 ++ [m]) else acc2) acc) acc,
        ∃ a ∈ articles, c = a.id := by
    intro ms
    induction ms with
    | nil => exact fun acc hacc c hc => hacc c hc
    | cons m mss ih =>
      intro acc hacc c hc
      simp only [List.foldl_cons] at hc
      exact ih _ (foldl_inner_preserve articles m articles (fun a ha => ha) acc hacc) c hc
  intro c hc
  unfold extractCitations at hc
  dsimp only at hc
  split at hc
  · rename_i hemp
    cases articles with
    | nil =>
      dsimp only at hc
      rw [hemp] at hc
      cases hc
    | cons a rest =>
      dsimp only at hc
      have hcm : c = a.id := by simpa using hc
      exact ⟨a, List.mem_cons_self _ _, hcm⟩
  · exact hfold _ [] (by intro c' hc'; cases hc') c hc

theorem foldl_max_mem (l : List (String × Nat)) :
    ∀ (p : String × Nat),
      l.foldl (fun best q => if q.2 > best.2 then q else best) p = p
      ∨ l.foldl (fun best q => if q.2 > best.2 then q else best) p ∈ l := by
  induction l with
  | nil => exact fun _ => Or.inl rfl
  | cons q qs ih =>
    intro p
    simp only [List.foldl_cons]
    by_cases h : q.2 > p.2
    · rw [if_pos h]
      rcases ih q with h1 | h1
      · exact Or.inr (by rw [h1]; exact List.mem_cons_self _ _)
      · exact Or.inr (List.mem_cons_of_mem _ h1)
    · rw [if_neg h]
      rcases ih p with h1 | h1
      · exact Or.inl h1
      · exact Or.inr (List.mem_cons_of_mem _ h1)

theorem tagInner_eq (w : String) (tags : List String) :
    ∀ acc : ℚ, tags.foldl (fun acc2 tg => if pyIn w tg then acc2 + 3 else acc2) acc
      = acc + 3 * (tags.countP (fun tg => pyIn w tg) : ℚ) := by
  induction tags with
  | nil => intro acc; simp
  | cons tg tgs ih =>
    intro acc
    simp only [List.foldl_cons, List.countP_cons]
    by_cases h : pyIn w tg = true
    · rw [if_pos h, ih]
      simp only [h, if_pos]
      push_cast
      ring
    · rw [if_neg h, ih]
      simp [h]

theorem tagScore_fold_eq (tags : List String) (qw : List String) :
    ∀ acc : ℚ, qw.foldl (fun acc w =>
        tags.foldl (fun acc2 tg => if pyIn w tg then acc2 + 3 else acc2) acc) acc
      = acc + 3 * ((qw.map
          (fun w => (tags.countP (fun tg => pyIn w tg) : ℚ))).sum) := by
  induction qw with
  | nil => intro acc; simp
  | cons w ws ih =>
    intro acc
    simp only [List.foldl_cons, List.map_cons, List.sum_cons]
    rw [tagInner_eq, ih]
    ring

theorem pyRound3_clamp_range (c : ℚ) :
    0.3 ≤ pyRound 3 (max 0.3 (min 0.95 c))
    ∧ pyRound 3 (max 0.3 (min 0.95 c)) ≤ 0.95 := by
  constructor
  · have hx : ((300 : ℤ) : ℚ) ≤ max 0.3 (min 0.95 c) * ((10 ^ 3 : ℕ) : ℚ) := by
      have h := le_max_left (0.3 : ℚ) (min 0.95 c)
      push_cast
      linarith
    calc (0.3 : ℚ) = ((300 : ℤ) : ℚ) / ((10 ^ 3 : ℕ) : ℚ) := by norm_num
      _ ≤ _ := le_pyRound hx
  · have hx : max 0.3 (min 0.95 c) * ((10 ^ 3 : ℕ) : ℚ) ≤ ((950 : ℤ) : ℚ) := by
      have h : max 0.3 (min 0.95 c) ≤ 0.95 := max_le (by norm_num) (min_le_left _ _)
      push_cast
      linarith
    calc pyRound 3 (max 0.3 (min 0.95 c))
        ≤ ((950 : ℤ) : ℚ) / ((10 ^ 3 : ℕ) : ℚ) := pyRound_le hx
      _ = 0.95 := by norm_num

theorem pyRound2_range (x : ℚ) (h1 : 1/3 ≤ x) (h2 : x ≤ 1) :
    0.3 ≤ pyRound 2 x ∧ pyRound 2 x ≤ 1 := by
  constructor
  · calc (0.3 : ℚ) ≤ ((33 : ℤ) : ℚ) / ((10 ^ 2 : ℕ) : ℚ) := by norm_num
      _ ≤ pyRound 2 x := le_pyRound (by push_cast; linarith)
  · calc pyRound 2 x ≤ ((100 : ℤ) : ℚ) / ((10 ^ 2 : ℕ) : ℚ) :=
        pyRound_le (by push_cast; linarith)
      _ = 1 := by norm_num

theorem pyRound3_clamp_bounds (e : ℚ) :
    0.1 ≤ pyRound 3 (max 0.1 (min 1 e)) ∧ pyRound 3 (max 0.1 (min 1 e)) ≤ 1 := by
  constructor
  · have hx : ((100 : ℤ) : ℚ) ≤ max 0.1 (min 1 e) * ((10 ^ 3 : ℕ) : ℚ) := by
      have h := le_max_left (0.1 : ℚ) (min 1 e)
      push_cast
      linarith
    calc (0.1 : ℚ) = ((100 : ℤ) : ℚ) / ((10 ^ 3 : ℕ) : ℚ) := by norm_num
      _ ≤ _ := le_pyRound hx
  · have hx : max 0.1 (min 1 e) * ((10 ^ 3 : ℕ) : ℚ) ≤ ((1000 : ℤ) : ℚ) := by
      have h : max 0.1 (min 1 e) ≤ 1 := max_le (by norm_num) (min_le_left _ _)
      push_cast
      linarith
    calc pyRound 3 (max 0.1 (min 1 e))
        ≤ ((1000 : ℤ) : ℚ) / ((10 ^ 3 : ℕ) : ℚ) := pyRound_le hx
      _ = 1 := by norm_num

theorem pyMaxByVal_four (k1 k2 k3 k4 : String) (v1 v2 v3 v4 : Nat) :
    (pyMaxByVal [(k1, v1), (k2, v2), (k3, v3), (k4, v4)]).1 = k1
    ∨ (pyMaxByVal [(k1, v1), (k2, v2), (k3, v3), (k4, v4)]).1 = k2
    ∨ (pyMaxByVal [(k1, v1), (k2, v2), (k3, v3), (k4, v4)]).1 = k3
    ∨ (pyMaxByVal [(k1, v1), (k2, v2), (k3, v3), (k4, v4)]).1 = k4 := by
  have h := foldl_max_mem [(k2, v2), (k3, v3), (k4, v4)] (k1, v1)
  simp only [List.mem_cons, List.not_mem_nil, or_false] at h
  unfold pyMaxByVal
  dsimp only
  rcases h with h | h | h | h
  · exact Or.inl (by rw [h])
  · exact Or.inr (Or.inl (by rw [h]))
  · exact Or.inr (Or.inr (Or.inl (by rw [h])))
  · exact Or.inr (Or.inr (Or.inr (by rw [h])))

/-! ### Concrete sample data used by witnesses and counterexamples -/

def sampleArticle : Article :=
  ⟨"a1", "Refund policy guide", "How to get a refund for a billing charge",
   ["billing", "refund"], false, some "published"⟩

def ticketC1 : Ticket :=
  ⟨"t1", "refund invoice charge payment billing card refund invoice", ""⟩

def articleC1 : Article :=
  ⟨"a1", "refund invoice charge payment billing card refund invoice", "refund help",
   [], false, some "published"⟩

def articleC6 : Article := ⟨"a2", "Tagged", "", ["Refund", "refunds"], false, none⟩

/-! ### The claims -/

/-- Claim C4. For every query, candidate list and limit `k`, `top_k` returns
at most `min(k, number of candidates whose score ≥ the relevance
threshold)` entries, only entries with score ≥ the threshold, sorted
descending by score, and stable on ties: the output restricted to any one
score value is a prefix of the kept candidates restricted to that value,
so equal-score entries keep their input order. -/
theorem top_k_spec (q : String) (kb : List Article) (k : Nat) :
    (top_k q kb k).length
        ≤ min k (kb.countP (fun d =>
            settings.RELEVANCE_THRESHOLD ≤ calculate_relevance_score q d))
    ∧ (∀ p ∈ top_k q kb k, settings.RELEVANCE_THRESHOLD ≤ p.2)
    ∧ (top_k q kb k).Pairwise (fun a b => b.2 ≤ a.2)
    ∧ (∀ s : ℚ, (top_k q kb k).filter (fun p => p.2 = s)
        <+: (scoredOf q kb).filter (fun p => p.2 = s)) := by
  unfold top_k
  split
  · exact ⟨by simp, by simp, by simp, fun s => by simp⟩
  · refine ⟨?_, ?_, ?_, ?_⟩
    · rw [List.length_take, length_sortDesc, scoredOf_length]
    · intro p hp
      exact scoredOf_score_ge (mem_sortDesc.mp (List.take_subset _ _ hp))
    · exact (pairwise_sortDesc _).sublist (List.take_sublist _ _)
    · intro s
      have h1 : ((sortDesc (scoredOf q kb)).take k).filter (fun p => p.2 = s)
          <+: (sortDesc (scoredOf q kb)).filter (fun p => p.2 = s) :=
        filter_take_prefix _ _ _
      rw [filter_sortDesc] at h1
      exact h1

/-- Claim C9. `top_k` on an empty candidate list returns `[]`, and on a
query that strips to the empty string returns `[]` (both total, no
error). -/
theorem top_k_degenerate (q : String) (kb : List Article) (k : Nat) :
    top_k q [] k = [] ∧ (pyStrip q = "" → top_k q kb k = []) := by
  constructor
  · unfold top_k
    rw [if_pos (Or.inr rfl)]
  · intro h
    unfold top_k
    rw [if_pos (Or.inl h)]

/-- Witness for C9: a whitespace-only query against a non-empty KB. -/
theorem top_k_degenerate_witness : top_k " \t " [sampleArticle] 3 = [] :=
  (top_k_degenerate " \t " [sampleArticle] 3).2 (by decide)

/-- Claim C2. In both drafting modes and every fallback branch (model call
answers or raises), every citation returned by `draft` is the id of one of
the supplied KB articles. -/
theorem draft_citations_subset (text : String) (articles : List Article)
    (oracle : Option String) :
    (∀ c ∈ (stubDraft text articles).2, ∃ a ∈ articles, c = a.id)
    ∧ (∀ c ∈ (geminiDraft oracle text articles).2, ∃ a ∈ articles, c = a.id) := by
  constructor
  · cases articles with
    | nil => intro c hc; cases hc
    | cons best rest =>
      intro c hc
      simp only [stubDraft] at hc
      have hcm : c = best.id := by simpa using hc
      exact ⟨best, List.mem_cons_self _ _, hcm⟩
  · cases articles with
    | nil => intro c hc; cases hc
    | cons best rest =>
      cases oracle with
      | some modelText =>
        intro c hc
        simp only [geminiDraft] at hc
        exact extractCitations_subset _ _ c hc
      | none =>
        intro c hc
        simp only [geminiDraft] at hc
        have hcm : c = best.id := by simpa using hc
        exact ⟨best, List.mem_cons_self _ _, hcm⟩

/-- Witness for C2 at a concrete draft: the citation produced by the stub
drafter is the id of a supplied article. -/
theorem draft_citations_subset_witness : ∃ a ∈ [sampleArticle], "a1" = a.id :=
  (draft_citations_subset "please help" [sampleArticle] none).1 "a1" (by decide)

/-- Claim C8. With an empty article list, both drafting modes return their
fixed generic acknowledgment template with empty citations; the
model-backed mode returns it whatever the external call would do (the
model is not consulted). -/
theorem draft_empty_articles_template (text : String) (oracle : Option String) :
    stubDraft text [] = (stubNoArticleTemplate, [])
    ∧ geminiDraft oracle text [] = (geminiNoArticleTemplate, []) :=
  ⟨rfl, rfl⟩

/-- Claim C10. Every pipeline run produces exactly six step-log entries
whose actions are, in order: PIPELINE_STARTED, AGENT_CLASSIFIED,
KB_RETRIEVED, DRAFT_GENERATED, DECISION_COMPUTED, PIPELINE_COMPLETED (the
completion entry is appended to the same list the response references, so
it appears in the returned `stepLogs`). -/
theorem pipeline_steplogs_actions (P : Provider) (tr : String) (t : Ticket)
    (kb : List Article) :
    (run_pipeline P tr t kb).stepLogs
        = ["PIPELINE_STARTED", "AGENT_CLASSIFIED", "KB_RETRIEVED",
           "DRAFT_GENERATED", "DECISION_COMPUTED", "PIPELINE_COMPLETED"]
    ∧ (run_pipeline P tr t kb).stepLogs.length = 6 :=
  ⟨rfl, rfl⟩

/-- Claim C7, amended. Appending text to a ticket never decreases the
heuristic billing score; in particular appending further billing-keyword
occurrences never decreases it.  (Inserting an occurrence in the middle of
the text can decrease the score, because the insertion may split an
existing keyword occurrence — see the counterexample.) -/
theorem billingScore_monotone_append (t s : String) :
    billingScore t ≤ billingScore (t ++ s) := by
  unfold billingScore
  rw [lowerStr_append]
  exact catRawScore_le_append _ _ _ _

/-- Claim C7, counterexample. Inserting the billing keyword `"card"` at
position 3 of `"charged"` (which leaves the rest of the text unchanged)
splits the existing `"charge"` keyword occurrence: the billing score drops
from 4 (3 for `"charge"` + 1 for the indicator `"charged"`) to 3. -/
theorem billingScore_insertion_decreases :
    "card" ∈ BILLING
    ∧ ("cha" ++ "card" ++ "rged" : String) = "chacardrged"
    ∧ ("cha" ++ "rged" : String) = "charged"
    ∧ billingScore "chacardrged" < billingScore "charged" := by
  refine ⟨by decide, by decide, by decide, by decide⟩

/-- Claim C6, amended. The tag component of the relevance score adds the
flat bonus 3.0 once per (query token, tag) pair in which the token is a
substring of the tag — multiple matching tags for one token, and repeated
tokens, each add the bonus again. -/
theorem tagScore_eq_three_mul_pairs (q : String) (d : Article) :
    tagScore (queryTokens q) (d.tags.map lowerStr)
      = 3 * (((queryTokens q).map
          (fun w => ((d.tags.map lowerStr).countP (fun tg => pyIn w tg) : ℚ))).sum) := by
  unfold tagScore
  rw [tagScore_fold_eq]
  ring

/-- Claim C6, counterexample. For the one-token query `"refund"` and a
document whose two tags both contain the token, the tag component is 6.0
(one bonus per matching pair), while the claimed formula — flat bonus ×
number of distinct matching query tokens — gives 3.0. -/
theorem tagScore_per_pair_counterexample :
    tagScore (queryTokens "refund") (articleC6.tags.map lowerStr) = 6
    ∧ ((queryTokens "refund").dedup.filter
        (fun w => (articleC6.tags.map lowerStr).any (fun tg => pyIn w tg))).length = 1
    ∧ (6 : ℚ) ≠ 3 * 1 := by
  refine ⟨?_, by decide, by norm_num⟩
  have h1 : queryTokens "refund" = ["refund"] := by decide
  have h2 : articleC6.tags.map lowerStr = ["refund", "refunds"] := by decide
  rw [h1, h2]
  have h3 : pyIn "refund" "refund" = true := by decide
  have h4 : pyIn "refund" "refunds" = true := by decide
  simp only [tagScore, List.foldl_cons, List.foldl_nil, h3, h4, if_pos]
  norm_num

/-! ### Concrete evaluation of the pipeline on `ticketC1` / `articleC1` -/

/-- The derived ticket text of `ticketC1` (`title + " " + description`,
with the trailing space from the empty description). -/
def textC1 : String := "refund invoice charge payment billing card refund invoice "

theorem stubClassify_eval_C1 : stubClassify textC1 = ("billing", 0.95) := by
  have h1 : stubScorePairs (lowerStr textC1)
      = [("billing", 24), ("tech", 0), ("shipping", 0), ("other", 0)] := by decide
  have h2 : (pySplitWs (lowerStr textC1)).length = 8 := by decide
  unfold stubClassify
  dsimp only
  rw [h1, h2]
  norm_num +decide [maxVal, pyMaxByVal, min_def, max_def, List.filter_cons,
    List.filter_nil, List.foldl_cons, List.foldl_nil, List.map_cons, List.map_nil]
  rw [pyRound_eval (n := 950) (by norm_num) (by norm_num)]
  norm_num

theorem enhanced_eval_C1 : enhanced_keyword_score textC1 articleC1 = 639/4 := by
  have hq : queryTokens textC1
      = ["refund", "invoice", "charge", "payment", "billing", "card", "refund",
         "invoice"] := by decide
  have h1 : titleMatchCount ["refund", "invoice", "charge", "payment", "billing",
      "card", "refund", "invoice"] (lowerStr articleC1.title) = 12 := by decide
  have h2 : bodyMatchCount ["refund", "invoice", "charge", "payment", "billing",
      "card", "refund", "invoice"] (lowerStr articleC1.body) = 2 := by decide
  have h3 : (pySplitWs (lowerStr articleC1.title)).length = 8 := by decide
  have h4 : (pySplitWs (lowerStr articleC1.body)).length = 2 := by decide
  have h5 : ((["refund", "invoice", "charge", "payment", "billing", "card",
      "refund", "invoice"] : List String).dedup.filter
        (fun w => (pySplitWs (lowerStr articleC1.title)
          ++ pySplitWs (lowerStr articleC1.body)).contains w)).length = 6 := by decide
  have h6 : articleC1.tags.map lowerStr = ([] : List String) := by decide
  unfold enhanced_keyword_score
  dsimp only
  rw [hq, h6]
  rw [if_neg (by decide)]
  rw [h1, h2]
  unfold titlePhraseBonus tagScore phraseBonus densityBonus coverageBonus
  dsimp only
  rw [h3, h4, h5]
  norm_num +decide [List.foldl_cons, List.foldl_nil, List.map_cons, List.map_nil]

theorem semantic_eval_C1 : semantic_similarity_score textC1 articleC1 = 6/7 := by
  have hqt : (wordTokensMin3 (lowerStr textC1)).dedup
      = ["charge", "payment", "billing", "card", "refund", "invoice"] := by decide
  have hdt : (wordTokensMin3
      (lowerStr articleC1.title ++ " " ++ lowerStr articleC1.body)).dedup
      = ["charge", "payment", "billing", "card", "invoice", "refund", "help"] := by
    decide
  have hint : ((["charge", "payment", "billing", "card", "refund", "invoice"]
      : List String).filter
        (fun w => (["charge", "payment", "billing", "card", "invoice", "refund",
          "help"] : List String).contains w)).length = 6 := by decide
  have huni : ((["charge", "payment", "billing", "card", "refund", "invoice"]
      ++ ["charge", "payment", "billing", "card", "invoice", "refund", "help"]
      : List String).dedup).length = 7 := by decide
  unfold semantic_similarity_score
  dsimp only
  rw [hqt, hdt]
  rw [if_neg (by decide)]
  rw [hint, huni]
  rw [if_neg (by decide)]
  norm_num

theorem relevance_eval_C1 :
    calculate_relevance_score textC1 articleC1 = 6567/56 := by
  unfold calculate_relevance_score
  rw [if_neg (by decide)]
  dsimp only
  rw [enhanced_eval_C1, semantic_eval_C1]
  rw [if_pos (by decide), if_neg (by decide)]
  norm_num [settings]

theorem top_k_eval_C1 : top_k textC1 [articleC1] 3 = [(articleC1, 6567/56)] := by
  have hf : (if settings.RELEVANCE_THRESHOLD
        ≤ calculate_relevance_score textC1 articleC1
      then some (articleC1, calculate_relevance_score textC1 articleC1) else none)
      = some (articleC1, 6567/56) := by
    rw [relevance_eval_C1, if_pos (by norm_num [settings])]
  unfold top_k
  rw [if_neg (by decide)]
  unfold scoredOf
  rw [List.filterMap_cons, hf, List.filterMap_nil]
  simp [sortDesc, insertDesc]

/-- Witness for C4 at a concrete query, KB and limit: the single entry
returned for `textC1` clears the relevance threshold. -/
theorem top_k_spec_witness :
    settings.RELEVANCE_THRESHOLD ≤ ((articleC1, (6567 : ℚ)/56) : Article × ℚ).2 :=
  (top_k_spec textC1 [articleC1] 3).2.1 _
    (by rw [top_k_eval_C1]; exact List.mem_singleton_self _)

theorem draftQuality_eval_C1 :
    draftQualityScore (stubDraft textC1 [articleC1]).1 1 = 1 := by
  have hwc : (pySplitWs (stubDraft textC1 [articleC1]).1).length = 103 := by decide
  unfold draftQualityScore
  dsimp only
  rw [if_pos (by decide : ¬ (stubDraft textC1 [articleC1]).1 = "")]
  rw [hwc]
  norm_num +decide [min_def]

/-! ### C5, C3 and C1 -/

/-- Claim C5. The stub classifier's confidence is always clamped to
`[0.3, 0.95]`, and when all four per-category scores are zero it returns
category `"other"` with the fixed confidence `0.3`. -/
theorem stubClassify_confidence_range (text : String) :
    (0.3 ≤ (stubClassify text).2 ∧ (stubClassify text).2 ≤ 0.95)
    ∧ ((∀ p ∈ stubScorePairs (lowerStr text), p.2 = 0) →
        stubClassify text = ("other", 0.3)) := by
  constructor
  · unfold stubClassify
    dsimp only
    split
    · constructor <;> norm_num
    · exact pyRound3_clamp_range _
  · intro h
    have hb := h ("billing", catRawScore BILLING billingIndicators (lowerStr text))
      (by simp [stubScorePairs])
    have ht := h ("tech", catRawScore TECH techIndicators (lowerStr text))
      (by simp [stubScorePairs])
    have hs := h ("shipping", catRawScore SHIP shippingIndicators (lowerStr text))
      (by simp [stubScorePairs])
    dsimp only at hb ht hs
    have hz : maxVal (stubScorePairs (lowerStr text)) = 0 := by
      simp only [stubScorePairs, maxVal, List.map_cons, List.map_nil,
        List.foldl_cons, List.foldl_nil, hb, ht, hs]
      simp
    unfold stubClassify
    dsimp only
    rw [if_pos hz]

/-- Witness for C5: a text matching no keyword at all. -/
theorem stubClassify_confidence_range_witness :
    stubClassify "zzzz" = ("other", 0.3) :=
  (stubClassify_confidence_range "zzzz").2 (by decide)

/-- Claim C3, amended. When the model-backed classifier's external call
raises, the result comes from the inline keyword-count fallback (not the
stub strategy): its category is one of the four valid categories and its
confidence lies in `[0.3, 1]`; it does not in general equal the stub
strategy's output. -/
theorem fallbackConf_range (b : Nat) :
    0.3 ≤ pyRound 2 (if b > 0 then min 1 ((b : ℚ) / 3) else 0.3)
    ∧ pyRound 2 (if b > 0 then min 1 ((b : ℚ) / 3) else 0.3) ≤ 1 := by
  by_cases hb : b > 0
  · rw [if_pos hb]
    refine pyRound2_range _ (le_min (by norm_num) ?_) (min_le_left _ _)
    have h1 : (1 : ℚ) ≤ (b : ℚ) := by exact_mod_cast hb
    linarith
  · rw [if_neg hb]
    constructor
    · rw [pyRound_eval (n := 30) (by norm_num) (by norm_num)]
      norm_num
    · rw [pyRound_eval (n := 30) (by norm_num) (by norm_num)]
      norm_num

theorem classify_error_fallback_valid (text : String) :
    ((geminiClassify none text).1 = "billing" ∨ (geminiClassify none text).1 = "tech"
      ∨ (geminiClassify none text).1 = "shipping"
      ∨ (geminiClassify none text).1 = "other")
    ∧ 0.3 ≤ (geminiClassify none text).2 ∧ (geminiClassify none text).2 ≤ 1 := by
  unfold geminiClassify
  dsimp only
  constructor
  · split
    · apply pyMaxByVal_four
    · exact Or.inr (Or.inr (Or.inr rfl))
  · exact fallbackConf_range _

/-- Claim C3, counterexample. On the text `"refund"` the stub strategy
returns confidence 0.95 while the error fallback of the model-backed
classifier returns 0.33, so the two strategies do not agree. -/
theorem classify_error_fallback_ne_stub :
    stubClassify "refund" = ("billing", 0.95)
    ∧ geminiClassify none "refund" = ("billing", 0.33)
    ∧ geminiClassify none "refund" ≠ stubClassify "refund" := by
  have hstub : stubClassify "refund" = ("billing", 0.95) := by
    have h1 : stubScorePairs (lowerStr "refund")
        = [("billing", 3), ("tech", 0), ("shipping", 0), ("other", 0)] := by decide
    have h2 : (pySplitWs (lowerStr "refund")).length = 1 := by decide
    unfold stubClassify
    dsimp only
    rw [h1, h2]
    norm_num +decide [maxVal, pyMaxByVal, min_def, max_def, List.filter_cons,
      List.filter_nil, List.foldl_cons, List.foldl_nil, List.map_cons, List.map_nil]
    rw [pyRound_eval (n := 950) (by norm_num) (by norm_num)]
    norm_num
  have hfall : geminiClassify none "refund" = ("billing", 0.33) := by
    have h1 : BILLING.foldl (fun acc w => acc + pyCount w (lowerStr "refund")) 0
        = 1 := by decide
    have h2 : TECH.foldl (fun acc w => acc + pyCount w (lowerStr "refund")) 0
        = 0 := by decide
    have h3 : SHIP.foldl (fun acc w => acc + pyCount w (lowerStr "refund")) 0
        = 0 := by decide
    unfold geminiClassify
    dsimp only
    rw [h1, h2, h3]
    norm_num +decide [pyMaxByVal, List.foldl_cons, List.foldl_nil, min_def]
    rw [pyRound_eval (n := 33) (by norm_num) (by norm_num)]
    norm_num
  refine ⟨hstub, hfall, ?_⟩
  rw [hstub, hfall]
  intro hcon
  have h2 : (0.33 : ℚ) = 0.95 := congrArg Prod.snd hcon
  norm_num at h2

/-- Claim C1, amended. The final confidence returned by the pipeline is
clamped to `[0.1, 1]` — so `0 < confidence ≤ 1` holds and it is never
exactly 0 — but the ceiling is `1.0` inclusive: the clamp is
`max(0.1, min(1.0, ·))`, and the value 1 is attained (see the
counterexample). -/
theorem pipeline_confidence_clamped (P : Provider) (tr : String) (t : Ticket)
    (kb : List Article) :
    0.1 ≤ (run_pipeline P tr t kb).confidence
    ∧ (run_pipeline P tr t kb).confidence ≤ 1 := by
  unfold run_pipeline
  dsimp only
  exact pyRound3_clamp_bounds _

/-- Claim C1, counterexample. A billing-heavy ticket with one
highly-relevant published KB article reaches final confidence exactly 1:
base 0.95 plus boosts 0.35 with no penalties clamps to `min(1.0, 1.3) = 1`,
contradicting "never exactly 1". -/
theorem pipeline_confidence_reaches_one :
    (run_pipeline stubProvider "trace-1" ticketC1 [articleC1]).confidence = 1 := by
  have htext : ticketC1.title ++ " " ++ ticketC1.description = textC1 := by decide
  have hmax : maxArticlesForText textC1.length = 3 := by decide
  have hcl : (stubDraft textC1 [articleC1]).2.length = 1 := by decide
  have hwords : (pySplitWs textC1).length = 8 := by decide
  have hrq : retrievalQuality [(6567 : ℚ)/56] = 1 := by
    unfold retrievalQuality
    rw [if_neg (List.cons_ne_nil _ _)]
    dsimp only [listMaxD, List.foldl_nil]
    have hcount : List.countP (fun s => decide (s ≥ 5)) [(6567 : ℚ)/56] = 1 := by
      simp only [List.countP_cons, List.countP_nil, decide_eq_true_eq]
      norm_num
    rw [hcount]
    rw [if_neg (by norm_num)]
    rw [if_pos (by norm_num)]
    norm_num [min_def]
  have hcov : kbCoverageQuality [(6567 : ℚ)/56] [articleC1].length ((6567 : ℚ)/56)
      = 1 := by
    simp only [List.length_singleton]
    unfold kbCoverageQuality
    rw [if_pos (by norm_num)]
    have hcount : List.countP (fun s => decide (s ≥ 1)) [(6567 : ℚ)/56] = 1 := by
      simp only [List.countP_cons, List.countP_nil, decide_eq_true_eq]
      norm_num
    rw [hcount]
    norm_num [min_def]
  unfold run_pipeline
  dsimp only [stubProvider]
  rw [htext, stubClassify_eval_C1, hmax, top_k_eval_C1]
  dsimp only [List.map_cons, List.map_nil, listMaxD, List.foldl_nil]
  rw [hcl, draftQuality_eval_C1, hrq, hcov, hwords]
  norm_num +decide [min_def, max_def]
  rw [pyRound_eval (n := 1000) (by norm_num) (by norm_num)]
  norm_num

end Helpdesk
